import Mathlib

/-!
Shallow embedding of the go-flatpak progress-stream decoder, error
normalization and ref parsing (src/install.go, src/error.go, src/flatpak.go).

Modelling conventions:
* Go byte strings are modelled as `List Char` (all inputs relevant to the
  claims are ASCII, where bytes and runes coincide).
* Go `float64` values are modelled exactly by `GoFloat`: an exact rational,
  or `nan` for the indeterminate form `0.0/0.0`.  Every numeric value that
  appears in the claims (sums of small integers, decimal literals such as
  `1.5`, products with powers of ten) is exactly representable in IEEE
  float64, so exact-rational modelling coincides with the code's arithmetic
  on them.
* `int64(x)` conversion is modelled as mathematical truncation toward zero
  (`goInt64`); overflow is not modelled (claim values are far below 2^63).
* The callback side effect of `InstallProgressMonitor.Write` is reified as
  the list of emitted events in `WriteResult`.
* The three Go regexps (`regInstall`, `regProgress`, `regSpeed`) are
  compiled by hand into leftmost-first matchers with the greedy submatch
  semantics of Go's regexp package (`.` does not match a newline, `\s` is
  the ASCII whitespace class, `\w` is `[0-9A-Za-z_]`).
-/

deriving instance DecidableEq for Except

namespace Flatpak

/-- Exact product of two rationals, written through `mkRat` so that it
evaluates by kernel reduction; `qmul_eq_mul` shows it is ordinary
multiplication. -/
def qmul (a b : ℚ) : ℚ := mkRat (a.num * b.num) (a.den * b.den)

theorem qmul_eq_mul (a b : ℚ) : qmul a b = a * b := by
  unfold qmul
  rw [Rat.mkRat_eq_div]
  push_cast
  conv_rhs => rw [← Rat.num_div_den a, ← Rat.num_div_den b]
  rw [div_mul_div_comm]

/-- Characters of Go's regexp class `\s`, i.e. `[\t\n\f\r ]`. -/
def goIsSpace (c : Char) : Bool :=
  c = ' ' || c = '\t' || c = '\n' || c = Char.ofNat 12 || c = '\r'

/-- Characters of Go's regexp class `\w`, i.e. `[0-9A-Za-z_]`. -/
def goIsWord (c : Char) : Bool :=
  c.isAlphanum || c = '_'

/-- `bytes.Split`/`strings.Split` with a one-character separator. -/
def splitOnChar (sep : Char) : List Char → List (List Char)
  | [] => [[]]
  | c :: cs =>
    let r := splitOnChar sep cs
    if c = sep then [] :: r
    else (c :: r.headD []) :: r.tail

/-- `strings.Join` with a one-character separator (inverse of `splitOnChar`). -/
def joinChar (sep : Char) : List (List Char) → List Char
  | [] => []
  | [l] => l
  | l :: l' :: ls => l ++ sep :: joinChar sep (l' :: ls)

theorem splitOnChar_ne_nil (sep : Char) (s : List Char) :
    splitOnChar sep s ≠ [] := by
  cases s with
  | nil => simp [splitOnChar]
  | cons c cs =>
    simp only [splitOnChar]
    split <;> simp

theorem joinChar_cons_cons (sep c : Char) (h : List Char) (t : List (List Char)) :
    joinChar sep ((c :: h) :: t) = c :: joinChar sep (h :: t) := by
  cases t with
  | nil => rfl
  | cons x xs => simp [joinChar]

theorem joinChar_splitOnChar (sep : Char) (s : List Char) :
    joinChar sep (splitOnChar sep s) = s := by
  induction s with
  | nil => rfl
  | cons c cs ih =>
    simp only [splitOnChar]
    by_cases hc : c = sep
    · subst hc
      simp only [if_pos rfl]
      obtain ⟨h, t, hht⟩ : ∃ h t, splitOnChar c cs = h :: t := by
        cases hs : splitOnChar c cs with
        | nil => exact absurd hs (splitOnChar_ne_nil c cs)
        | cons h t => exact ⟨h, t, rfl⟩
      rw [hht] at ih ⊢
      simpa [joinChar] using ih
    · simp only [if_neg hc]
      obtain ⟨h, t, hht⟩ : ∃ h t, splitOnChar sep cs = h :: t := by
        cases hs : splitOnChar sep cs with
        | nil => exact absurd hs (splitOnChar_ne_nil sep cs)
        | cons h t => exact ⟨h, t, rfl⟩
      rw [hht] at ih ⊢
      simpa [joinChar_cons_cons] using ih

/-- A Go `float64` value as it arises in this code base: an exact rational,
or IEEE NaN (which the decoder produces as `0.0/0.0` on an empty bar). -/
inductive GoFloat where
  | nan : GoFloat
  | val : ℚ → GoFloat
deriving DecidableEq

/-- `float64(a) / float64(b)` for natural numbers `a ≤ b*3` as in
`getProgress`: exact when the divisor is nonzero, NaN for `0.0/0.0`. -/
def floatDiv (a b : Nat) : GoFloat :=
  if b = 0 then .nan else .val (mkRat a b)

/-- Whether a decoded fraction lies in the closed interval [0,1] under IEEE
comparison semantics (every comparison with NaN is false). -/
def GoFloat.inUnitInterval : GoFloat → Bool
  | .nan => false
  | .val q => decide (0 ≤ q) && decide (q ≤ 1)

/-- Weight of one bar byte: the `switch` in `getProgress`
(src/install.go:31-42), `none` for the `default` error branch. -/
def charWeight (c : Char) : Option Nat :=
  if c = '#' then some 3
  else if c = '=' then some 2
  else if c = '-' then some 1
  else if c = ' ' then some 0
  else none

/-- The accumulator loop of `getProgress`: total weight of the bar, `none`
as soon as an unknown byte is hit. -/
def barTotal : List Char → Option Nat
  | [] => some 0
  | c :: cs =>
    match charWeight c with
    | none => none
    | some w => (barTotal cs).map (fun t => w + t)

/-- `getProgress` (src/install.go:28-45): decode a progress bar into
`float64(total) / float64(len(bar)*3)`, or an error on an unknown byte. -/
def getProgress (bar : List Char) : Except (List Char) GoFloat :=
  match barTotal bar with
  | none => .error (("unknown byte in progress bar").toList)
  | some total => .ok (floatDiv total (bar.length * 3))

/-- `bytes.TrimPrefix`: drop `pre` if it is a prefix, otherwise unchanged. -/
def bytesTrimPfx (pre s : List Char) : List Char :=
  if pre.isPrefixOf s then s.drop pre.length else s

/-- The structured error of src/error.go (the `origin *exec.ExitError`
field carries no information used by the claims and is omitted). -/
structure FlatpakError where
  desc : List Char
  usageShown : Bool
deriving DecidableEq

/-- `wrapError` (src/error.go:24-46): split stderr on newlines, flag a
leading `Usage:` banner, take the last non-empty line and strip a literal
`error:` prefix. -/
def wrapError (stderr : List Char) : FlatpakError :=
  let lines := splitOnChar '\n' stderr
  let usageShown :=
    match lines with
    | first :: _ => (("Usage:").toList).isPrefixOf first
    | [] => false
  let lastLine := lines.foldl (fun acc line => if line.length > 0 then line else acc) []
  ⟨bytesTrimPfx (("error:").toList) lastLine, usageShown⟩

/-- Spec-side reading of §6: "the last non-blank line of the process's
diagnostic output". -/
def specLastNonBlank (stderr : List Char) : List Char :=
  ((splitOnChar '\n' stderr).filter (fun l => !l.isEmpty)).getLastD []

/-- Spec-side reading of §6: "whether the diagnostic output began with a
usage-banner line". -/
def specUsageFlag (stderr : List Char) : Bool :=
  (("Usage:").toList).isPrefixOf ((splitOnChar '\n' stderr).headD [])

/-- Value of a decimal digit string (leading zeros allowed, empty = 0). -/
def digitsVal (ds : List Char) : Nat :=
  ds.foldl (fun a c => a * 10 + (c.toNat - 48)) 0

/-- `strconv.ParseFloat` restricted to its only call site: the argument is
a nonempty run of the regexp class `[\d.]`, for which ParseFloat succeeds
exactly when it holds at most one dot and at least one digit, and the value
is the exact decimal it denotes. -/
def parseFloatQ (s : List Char) : Option ℚ :=
  match splitOnChar '.' s with
  | [intPart] =>
    if intPart.all Char.isDigit && !intPart.isEmpty then
      some (mkRat (digitsVal intPart) 1)
    else none
  | [intPart, fracPart] =>
    if (intPart ++ fracPart).all Char.isDigit && !(intPart ++ fracPart).isEmpty then
      some (mkRat (digitsVal intPart * 10 ^ fracPart.length + digitsVal fracPart)
        (10 ^ fracPart.length))
    else none
  | _ => none

/-- `parseDataUnit` (src/install.go:70-85): the decimal unit table. -/
def parseDataUnit (unit : List Char) : Except (List Char) ℚ :=
  if unit = ("kB").toList then .ok 1000
  else if unit = ("MB").toList then .ok 1000000
  else if unit = ("GB").toList then .ok 1000000000
  else if unit = ("TB").toList then .ok 1000000000000
  else if unit = ("bytes").toList then .ok 1
  else .error (("unknown speed unit ").toList ++ unit)

/-- Go's `int64(x)` on a float64: truncation toward zero (for a canonical
rational, integer division of numerator by positive denominator). -/
def goInt64 (q : ℚ) : Int :=
  Int.tdiv q.num (q.den : Int)

/-- One attempt of `regSpeed` = `\(([\d.]+) (\w+)/s\)` at the head of `s`:
both quantified classes are matched greedily (the maximal runs are forced,
since the characters that follow them in the pattern lie outside the
classes).  Returns the two submatches (number, unit). -/
def matchSpeedAt (s : List Char) : Option (List Char × List Char) :=
  match s with
  | '(' :: rest =>
    let num := rest.takeWhile (fun c => c.isDigit || c = '.')
    let r1 := rest.dropWhile (fun c => c.isDigit || c = '.')
    if num.isEmpty then none
    else
      match r1 with
      | ' ' :: r2 =>
        let w := r2.takeWhile goIsWord
        let r3 := r2.dropWhile goIsWord
        if w.isEmpty then none
        else
          match r3 with
          | '/' :: 's' :: ')' :: _ => some (num, w)
          | _ => none
      | _ => none
  | _ => none

/-- `regSpeed.FindSubmatch`: leftmost match of the speed-token pattern. -/
def findSpeedToken : List Char → Option (List Char × List Char)
  | [] => none
  | c :: cs =>
    match matchSpeedAt (c :: cs) with
    | some r => some r
    | none => findSpeedToken cs

/-- `getSpeed` (src/install.go:47-68): find a speed token in the status
text, parse its magnitude, reject negatives (unreachable, since the class
`[\d.]` admits no sign), scale by the unit and truncate to int64. -/
def getSpeed (status : List Char) : Except (List Char) Int :=
  match findSpeedToken status with
  | some (speedStr, speedUnit) =>
    match parseFloatQ speedStr with
    | none => .error (("parse float error").toList)
    | some speedNum =>
      if speedNum < 0 then .error (("speed is less then 0").toList)
      else
        match parseDataUnit speedUnit with
        | .error e => .error e
        | .ok u => .ok (goInt64 (qmul speedNum u))
  | none => .error (("not match speed regexp").toList)

/-- The Go value of `speed, _ := getSpeed(status)`: the error is discarded
and the zero value stands in for it. -/
def speedOrZero (status : List Char) : Int :=
  match getSpeed status with
  | .ok v => v
  | .error _ => 0

/-- One attempt of `regInstall` = `Installing:\s+(\S+)\s+from` at the head
of `s`.  Each `\s+`/`\S+` run is forced to be maximal (the next pattern
element lies outside the class), so no backtracking arises.  Returns the
captured reference token. -/
def matchInstallAt (s : List Char) : Option (List Char) :=
  if (("Installing:").toList).isPrefixOf s then
    let r0 := s.drop 11
    let r1 := r0.dropWhile (fun c => goIsSpace c)
    if (r0.takeWhile (fun c => goIsSpace c)).isEmpty then none
    else
      let tok := r1.takeWhile (fun c => !goIsSpace c)
      let r2 := r1.dropWhile (fun c => !goIsSpace c)
      if tok.isEmpty then none
      else if (r2.takeWhile (fun c => goIsSpace c)).isEmpty then none
      else if (("from").toList).isPrefixOf (r2.dropWhile (fun c => goIsSpace c)) then
        some tok
      else none
  else none

/-- `regInstall.FindSubmatch`: leftmost match, scanning start positions
left to right. -/
def findInstall : List Char → Option (List Char)
  | [] => none
  | c :: cs =>
    match matchInstallAt (c :: cs) with
    | some tok => some tok
    | none => findInstall cs

/-- All splittings `s = g ++ ']' :: t` of `s` whose group `g` contains no
newline (the candidates for the greedy group `(.*)` before `\]` in
`regProgress`), listed with `g` shortest first. -/
def rbSplits : List Char → List (List Char × List Char)
  | [] => []
  | c :: cs =>
    if c = '\n' then []
    else
      let rest := (rbSplits cs).map (fun p => (c :: p.1, p.2))
      if c = ']' then ([], cs) :: rest else rest

/-- The tail `\s+(.*)` of `regProgress` against `t`: at least one
whitespace character, the whitespace run taken greedily, then the status
group runs to the end of the line. -/
def progressTail (t : List Char) : Option (List Char) :=
  match t with
  | c :: _ =>
    if goIsSpace c then some ((t.dropWhile (fun x => goIsSpace x)).takeWhile (fun x => x ≠ '\n'))
    else none
  | [] => none

/-- One attempt of `regProgress` = `\[(.*)\]\s+(.*)` at the head of `s`:
the greedy bar group prefers the longest candidate whose tail matches.
Returns the two submatches (bar, status). -/
def matchProgressAt (s : List Char) : Option (List Char × List Char) :=
  match s with
  | '[' :: rest =>
    ((rbSplits rest).reverse.filterMap
      (fun p => (progressTail p.2).map (fun st => (p.1, st)))).head?
  | _ => none

/-- `regProgress.FindSubmatch`: leftmost-first match. -/
def findProgress : List Char → Option (List Char × List Char)
  | [] => none
  | c :: cs =>
    match matchProgressAt (c :: cs) with
    | some r => some r
    | none => findProgress cs

/-- A progress event as delivered to the caller's callback:
(fraction, status text, speed in bytes per second). -/
abbrev ProgressEvent := GoFloat × List Char × Int

/-- The observable outcome of one `Write` call: callback invocations,
returned byte count, returned error. -/
structure WriteResult where
  events : List ProgressEvent
  n : Nat
  err : Option (List Char)
deriving DecidableEq

/-- The body of the progress-match branch of `Write`: decode the bar (an
error jumps to the return with no event, `goto out`), decode the speed
discarding its error, and invoke the callback once. -/
def progressStep (p bar status : List Char) : WriteResult :=
  match getProgress bar with
  | .error _ => ⟨[], p.length, none⟩
  | .ok progress => ⟨[(progress, status, speedOrZero status)], p.length, none⟩

/-- `(*InstallProgressMonitor).Write` (src/install.go:87-113).  The
installing pattern is tried first and on a match jumps straight to the
return (`goto out`); otherwise a progress match runs `progressStep`.
Every path returns `(len(p), nil)`. -/
def monitorWrite (p : List Char) : WriteResult :=
  match findInstall p with
  | some _ => ⟨[], p.length, none⟩
  | none =>
    match findProgress p with
    | some (bar, status) => progressStep p bar status
    | none => ⟨[], p.length, none⟩

theorem monitorWrite_install_eq (p tok : List Char)
    (h : findInstall p = some tok) : monitorWrite p = ⟨[], p.length, none⟩ := by
  unfold monitorWrite
  rw [h]

theorem monitorWrite_noMatch_eq (p : List Char)
    (hI : findInstall p = none) (hP : findProgress p = none) :
    monitorWrite p = ⟨[], p.length, none⟩ := by
  unfold monitorWrite
  rw [hI, hP]

theorem monitorWrite_progress_eq (p bar status : List Char)
    (hI : findInstall p = none) (hP : findProgress p = some (bar, status)) :
    monitorWrite p = progressStep p bar status := by
  unfold monitorWrite
  rw [hI, hP]

/-- A flatpak ref (src/flatpak.go:70-75).  The Go field `Type` is renamed
`type` because `Type` is reserved in Lean. -/
structure Ref where
  type : List Char
  Name : List Char
  Arch : List Char
  Branch : List Char
deriving DecidableEq

/-- `Ref.String` (src/flatpak.go:77-82). -/
def Ref.toString (r : Ref) : List Char :=
  if r.type ≠ [] then r.type ++ '/' :: r.Name ++ '/' :: r.Arch ++ '/' :: r.Branch
  else r.Name ++ '/' :: r.Arch ++ '/' :: r.Branch

/-- `parseRef` (src/flatpak.go:84-106): exactly three slash-separated
parts, or four parts whose first is `app` or `runtime`. -/
def parseRef (ref : List Char) : Except (List Char) Ref :=
  match splitOnChar '/' ref with
  | [a, b, c] => .ok ⟨[], a, b, c⟩
  | [t, n, a, b] =>
    if t = ("app").toList ∨ t = ("runtime").toList then .ok ⟨t, n, a, b⟩
    else .error (("unknown type in ref").toList)
  | _ => .error (("length of parts is not 3 or 4").toList)

/-- Options of `Install` (src/install.go:115-133). -/
structure InstallOptions where
  User : Bool
  System : Bool
  Runtime : Bool
  App : Bool
  NoPull : Bool
  NoDeploy : Bool
  NoRelated : Bool
  NoDeps : Bool
  NoStaticDeltas : Bool
  Bundle : Bool
  From : Bool
  GPGFile : List Char
  AssumeYes : Bool

/-- `(*InstallOptions).getArgs` (src/install.go:135-189); the nil pointer
receiver is `none`. -/
def InstallOptions.getArgs : Option InstallOptions → List (List Char)
  | none => []
  | some o =>
    (if o.User then [("--user").toList] else [])
    ++ (if o.System then [("--system").toList] else [])
    ++ (if o.Runtime then [("--runtime").toList] else [])
    ++ (if o.App then [("--app").toList] else [])
    ++ (if o.NoPull then [("--no-pull").toList] else [])
    ++ (if o.NoDeploy then [("--no-deploy").toList] else [])
    ++ (if o.NoRelated then [("--no-related").toList] else [])
    ++ (if o.NoDeps then [("--no-deps").toList] else [])
    ++ (if o.NoStaticDeltas then [("--no-static-deltas").toList] else [])
    ++ (if o.Bundle then [("--bundle").toList] else [])
    ++ (if o.From then [("--from").toList] else [])
    ++ (if o.GPGFile ≠ [] then [("--gpg-file=").toList ++ o.GPGFile] else [])
    ++ (if o.AssumeYes then [("-y").toList] else [])

/-- Options of `List` (src/flatpak.go:143-150). -/
structure ListOptions where
  User : Bool
  System : Bool
  Runtime : Bool
  App : Bool
  Arch : List Char
  All : Bool

/-- `(*ListOptions).getArgs` (src/flatpak.go:152-175). -/
def ListOptions.getArgs : Option ListOptions → List (List Char)
  | none => []
  | some o =>
    (if o.User then [("--user").toList] else [])
    ++ (if o.System then [("--system").toList] else [])
    ++ (if o.Runtime then [("--runtime").toList] else [])
    ++ (if o.App then [("--app").toList] else [])
    ++ (if o.Arch ≠ [] then [("--arch=").toList ++ o.Arch] else [])
    ++ (if o.All then [("--all").toList] else [])

/-- Options of `Info` (src/flatpak.go:231-234). -/
structure InfoOptions where
  User : Bool
  System : Bool

/-- `(*InfoOptions).getArgs` (src/flatpak.go:236-247). -/
def InfoOptions.getArgs : Option InfoOptions → List (List Char)
  | none => []
  | some o =>
    (if o.User then [("--user").toList] else [])
    ++ (if o.System then [("--system").toList] else [])

/-- Options of `Uninstall` (src/flatpak.go:294-304). -/
structure UninstallOptions where
  Arch : List Char
  User : Bool
  System : Bool
  Runtime : Bool
  App : Bool
  KeepRef : Bool
  NoRelated : Bool
  ForceRemove : Bool

/-- `(*UninstallOptions).getArgs` (src/flatpak.go:306-339). -/
def UninstallOptions.getArgs : Option UninstallOptions → List (List Char)
  | none => []
  | some o =>
    (if o.Arch ≠ [] then [("--arch").toList ++ o.Arch] else [])
    ++ (if o.User then [("--user").toList] else [])
    ++ (if o.System then [("--system").toList] else [])
    ++ (if o.Runtime then [("--runtime").toList] else [])
    ++ (if o.App then [("--app").toList] else [])
    ++ (if o.KeepRef then [("--keep-ref").toList] else [])
    ++ (if o.NoRelated then [("--no-related").toList] else [])
    ++ (if o.ForceRemove then [("--force-remove").toList] else [])

/-- Options of `Remotes` (src/flatpak.go:354-358). -/
structure RemotesOptions where
  User : Bool
  System : Bool
  ShowDisabled : Bool

/-- `(*RemotesOptions).getArgs` (src/flatpak.go:360-376). -/
def RemotesOptions.getArgs : Option RemotesOptions → List (List Char)
  | none => []
  | some o =>
    (if o.User then [("--user").toList] else [])
    ++ (if o.System then [("--system").toList] else [])
    ++ (if o.ShowDisabled then [("--show-disabled").toList] else [])

/-- Options of `RemoteLs` (src/flatpak.go:429-437). -/
structure RemoteLsOptions where
  Arch : List Char
  User : Bool
  System : Bool
  Runtime : Bool
  App : Bool
  Updates : Bool

/-- `(*RemoteLsOptions).getArgs` (src/flatpak.go:439-464). -/
def RemoteLsOptions.getArgs : Option RemoteLsOptions → List (List Char)
  | none => []
  | some o =>
    (if o.Arch ≠ [] then [("--arch").toList ++ o.Arch] else [])
    ++ (if o.User then [("--user").toList] else [])
    ++ (if o.System then [("--system").toList] else [])
    ++ (if o.Runtime then [("--runtime").toList] else [])
    ++ (if o.App then [("--app").toList] else [])
    ++ (if o.Updates then [("--updates").toList] else [])

/-- Spec-side weight table of §3 ProgressBarEncoding:
`'#' → 3`, `'=' → 2`, `'-' → 1`, `' ' → 0`. -/
def specCharWeight (c : Char) : Nat :=
  if c = '#' then 3 else if c = '=' then 2 else if c = '-' then 1 else 0

/-- Spec-side sum of per-character weights of a bar. -/
def specWeightSum (bar : List Char) : Nat :=
  (bar.map specCharWeight).sum

theorem barTotal_eq_specWeightSum (bar : List Char)
    (h : ∀ c ∈ bar, c = '#' ∨ c = '=' ∨ c = '-' ∨ c = ' ') :
    barTotal bar = some (specWeightSum bar) := by
  induction bar with
  | nil => rfl
  | cons c cs ih =>
    have hc := h c (List.mem_cons_self c cs)
    have ih' := ih (fun x hx => h x (List.mem_cons_of_mem c hx))
    simp only [barTotal, specWeightSum, List.map_cons, List.sum_cons, ih']
    rcases hc with h1 | h1 | h1 | h1 <;> subst h1 <;>
      simp [charWeight, specCharWeight]

theorem specWeightSum_le (bar : List Char) :
    specWeightSum bar ≤ bar.length * 3 := by
  induction bar with
  | nil => simp [specWeightSum]
  | cons c cs ih =>
    have hc : specCharWeight c ≤ 3 := by
      unfold specCharWeight
      repeat' split
      all_goals omega
    simp only [specWeightSum, List.map_cons, List.sum_cons, List.length_cons] at *
    omega

/-- C1: for every progress bar string over `{'#','=','-',' '}` the decoded
fraction is the sum of the per-character weights divided by three times the
bar length (in the source's operand order `len(bar) * 3`); instantiated at
the bar `"###===---   "` the fraction is exactly 1/2 (see the witness). -/
theorem getProgress_weighted (bar : List Char)
    (h : ∀ c ∈ bar, c = '#' ∨ c = '=' ∨ c = '-' ∨ c = ' ') :
    getProgress bar = .ok (floatDiv (specWeightSum bar) (bar.length * 3)) := by
  unfold getProgress
  rw [barTotal_eq_specWeightSum bar h]

/-- Witness for C1: the 12-character bar `"###===---   "` has weight sum 18
and decodes to exactly 18/36 = 1/2. -/
theorem getProgress_weighted_witness :
    getProgress (("###===---   ").toList) = .ok (.val (mkRat 1 2)) :=
  (getProgress_weighted (("###===---   ").toList) (by decide)).trans (by decide)

/-- C3 counterexample: the empty bar is well-formed (vacuously drawn from
the four bar characters), yet the code divides 0.0 by 0.0 and returns NaN,
which does not lie in [0,1] under IEEE comparisons. -/
theorem getProgress_empty_bar_nan :
    getProgress [] = .ok .nan ∧ GoFloat.inUnitInterval .nan = false := by
  decide

/-- C3 (amended): for every nonempty well-formed bar the decoded fraction
is a rational in the closed interval [0,1]; the empty bar instead yields
NaN (`getProgress_empty_bar_nan`). -/
theorem getProgress_fraction_in_unit_interval (bar : List Char) (hne : bar ≠ [])
    (h : ∀ c ∈ bar, c = '#' ∨ c = '=' ∨ c = '-' ∨ c = ' ') :
    ∃ q : ℚ, getProgress bar = .ok (.val q) ∧ 0 ≤ q ∧ q ≤ 1 := by
  have hb := barTotal_eq_specWeightSum bar h
  have hlen : bar.length * 3 ≠ 0 := by
    have h0 : bar.length ≠ 0 := fun h0 => hne (List.length_eq_zero.mp h0)
    omega
  refine ⟨mkRat (specWeightSum bar) (bar.length * 3), ?_, ?_, ?_⟩
  · unfold getProgress
    rw [hb]
    show Except.ok (floatDiv (specWeightSum bar) (bar.length * 3)) = _
    unfold floatDiv
    rw [if_neg hlen]
  · rw [Rat.mkRat_eq_div]
    positivity
  · rw [Rat.mkRat_eq_div]
    have hpos : (0 : ℚ) < ((bar.length * 3 : Nat) : ℚ) := by
      exact_mod_cast Nat.pos_of_ne_zero hlen
    rw [div_le_one hpos]
    exact_mod_cast specWeightSum_le bar

/-- Witness for C3 (amended): the one-character bar `"#"`. -/
theorem getProgress_fraction_in_unit_interval_witness :
    ∃ q : ℚ, getProgress (("#").toList) = .ok (.val q) ∧ 0 ≤ q ∧ q ≤ 1 :=
  getProgress_fraction_in_unit_interval (("#").toList) (by decide) (by decide)

theorem foldl_keep_nonblank (ls : List (List Char)) (acc : List Char) :
    ls.foldl (fun a l => if l.length > 0 then l else a) acc
      = (ls.filter (fun l => !l.isEmpty)).getLastD acc := by
  induction ls generalizing acc with
  | nil => rfl
  | cons x xs ih =>
    rw [List.foldl_cons]
    by_cases hx : x.isEmpty
    · have hlen : ¬ x.length > 0 := by
        cases x
        · simp
        · simp at hx
      rw [if_neg hlen, List.filter_cons_of_neg (by simp [hx]), ih]
    · have hlen : x.length > 0 := by
        cases x
        · simp at hx
        · simp
      rw [if_pos hlen, List.filter_cons_of_pos (by simp [hx]), ih,
        List.getLastD_cons]

/-- C2 counterexample: for the diagnostic output
`"Usage: flatpak install ...\nerror: something went wrong"` the code strips
only the literal `error:` prefix, so the description keeps the following
space: it is `" something went wrong"`, not `"something went wrong"`. -/
theorem wrapError_example_desc_has_space :
    (wrapError (("Usage: flatpak install ...\nerror: something went wrong").toList)).desc
        = (" something went wrong").toList
    ∧ (wrapError (("Usage: flatpak install ...\nerror: something went wrong").toList)).desc
        ≠ ("something went wrong").toList := by
  decide

/-- C2 (amended): the normalized description is the last non-blank line of
the diagnostic output with a literal `error:` prefix stripped (the
character after the colon, typically a space, is kept), and the
usage-banner flag is set exactly when the first line begins with `Usage:`;
for the example output the description is `" something went wrong"` (with
the leading space) and the flag is true. -/
theorem wrapError_normalizes (stderr : List Char) :
    (wrapError stderr).desc = bytesTrimPfx (("error:").toList) (specLastNonBlank stderr)
    ∧ (wrapError stderr).usageShown = specUsageFlag stderr
    ∧ wrapError (("Usage: flatpak install ...\nerror: something went wrong").toList)
        = ⟨(" something went wrong").toList, true⟩ := by
  refine ⟨?_, ?_, by decide⟩
  · unfold wrapError specLastNonBlank
    simp only
    rw [foldl_keep_nonblank]
  · unfold wrapError specUsageFlag
    obtain ⟨l, t, hlt⟩ : ∃ l t, splitOnChar '\n' stderr = l :: t := by
      cases hs : splitOnChar '\n' stderr with
      | nil => exact absurd hs (splitOnChar_ne_nil '\n' stderr)
      | cons l t => exact ⟨l, t, rfl⟩
    rw [hlt]
    simp

/-- C4: every write call consumes the whole chunk and returns no error, on
every control path of the decoder. -/
theorem monitorWrite_consumes_chunk (p : List Char) :
    (monitorWrite p).n = p.length ∧ (monitorWrite p).err = none := by
  rcases h1 : findInstall p with _ | tok
  · rcases h2 : findProgress p with _ | ⟨bar, status⟩
    · rw [monitorWrite_noMatch_eq p h1 h2]
      exact ⟨rfl, rfl⟩
    · rw [monitorWrite_progress_eq p bar status h1 h2]
      unfold progressStep
      rcases h3 : getProgress bar with e | fr
      · exact ⟨rfl, rfl⟩
      · exact ⟨rfl, rfl⟩
  · rw [monitorWrite_install_eq p tok h1]
    exact ⟨rfl, rfl⟩

/-- C5: when the installing-announcement pattern matches a chunk, the write
call returns immediately with no event emitted, regardless of whether the
progress pattern would also match. -/
theorem installing_match_no_event (p : List Char)
    (h : (findInstall p).isSome = true) :
    monitorWrite p = ⟨[], p.length, none⟩ := by
  obtain ⟨tok, htok⟩ := Option.isSome_iff_exists.mp h
  exact monitorWrite_install_eq p tok htok

/-- Witness for C5: the spec's example line
`"Installing: org.example.App from flathub\n"` emits no event. -/
theorem installing_match_no_event_witness :
    monitorWrite (("Installing: org.example.App from flathub\n").toList)
      = ⟨[], (("Installing: org.example.App from flathub\n").toList).length, none⟩ :=
  installing_match_no_event (("Installing: org.example.App from flathub\n").toList)
    (by decide)

theorem barTotal_isNone_of_bad (bar : List Char) (c : Char) (hc : c ∈ bar)
    (hw : charWeight c = none) : barTotal bar = none := by
  induction bar with
  | nil => cases hc
  | cons x xs ih =>
    rcases List.mem_cons.mp hc with h1 | h1
    · subst h1
      simp [barTotal, hw]
    · unfold barTotal
      cases hxw : charWeight x with
      | none => rfl
      | some w => rw [ih h1]; rfl

/-- C6: a progress-pattern match whose bar holds a character outside
`{'#','=','-',' '}` makes the bar decoder fail, so the callback is not
invoked and the write call still reports no error. -/
theorem bad_bar_char_no_event (p bar status : List Char) (c : Char)
    (hP : findProgress p = some (bar, status)) (hc : c ∈ bar)
    (hbad : c ≠ '#' ∧ c ≠ '=' ∧ c ≠ '-' ∧ c ≠ ' ') :
    getProgress bar = .error (("unknown byte in progress bar").toList)
    ∧ (monitorWrite p).events = [] ∧ (monitorWrite p).err = none := by
  have hw : charWeight c = none := by
    unfold charWeight
    rw [if_neg hbad.1, if_neg hbad.2.1, if_neg hbad.2.2.1, if_neg hbad.2.2.2]
  have hgp : getProgress bar = .error (("unknown byte in progress bar").toList) := by
    unfold getProgress
    rw [barTotal_isNone_of_bad bar c hc hw]
  refine ⟨hgp, ?_⟩
  rcases h1 : findInstall p with _ | tok
  · rw [monitorWrite_progress_eq p bar status h1 hP]
    unfold progressStep
    rw [hgp]
    exact ⟨rfl, rfl⟩
  · rw [monitorWrite_install_eq p tok h1]
    exact ⟨rfl, rfl⟩

/-- Witness for C6: the chunk `"[=x=] hi"` matches the progress pattern
with bar `"=x="`, whose `'x'` makes decoding fail; no event, no error. -/
theorem bad_bar_char_no_event_witness :
    getProgress (("=x=").toList) = .error (("unknown byte in progress bar").toList)
    ∧ (monitorWrite (("[=x=] hi").toList)).events = []
    ∧ (monitorWrite (("[=x=] hi").toList)).err = none :=
  bad_bar_char_no_event (("[=x=] hi").toList) (("=x=").toList) (("hi").toList) 'x'
    (by decide) (by decide) (by decide)

/-- C7: on a chunk classified as a progress line (the installing pattern
did not match) whose bar decodes successfully, the callback is invoked
exactly once, with the decoded fraction, the raw captured status text
(speed token not stripped), and `speedOrZero` of that text — which is the
decoded speed on success and zero when the speed token is missing or
invalid (by definition of `speedOrZero`, whose error branch yields 0). -/
theorem progress_event_once (p bar status : List Char) (fr : GoFloat)
    (hI : findInstall p = none)
    (hP : findProgress p = some (bar, status))
    (hB : getProgress bar = .ok fr) :
    (monitorWrite p).events = [(fr, status, speedOrZero status)] := by
  rw [monitorWrite_progress_eq p bar status hI hP]
  unfold progressStep
  rw [hB]

/-- Witness for C7: the spec's example line `"[====        ] 33%\n"` has no
speed token, and the event is still emitted with speed 0 and fraction
8/36 = 2/9 from the bar. -/
theorem progress_event_once_witness :
    (monitorWrite (("[====        ] 33%\n").toList)).events
      = [(.val (mkRat 2 9), ("33%").toList, 0)] :=
  (progress_event_once (("[====        ] 33%\n").toList) (("====        ").toList)
    (("33%").toList) (.val (mkRat 2 9)) (by decide) (by decide) (by decide)).trans
    (by decide)

/-- C8: the decimal unit table maps bytes/kB/MB/GB/TB to
1/10^3/10^6/10^9/10^12, the three example speed tokens convert to
2000000000, 5 and 1500000 bytes per second, and every unit outside the
closed set is rejected with an error (on which the caller's speed defaults
to zero, see `speedOrZero`). -/
theorem speed_unit_conversion (u : List Char)
    (hu : u ≠ ("bytes").toList ∧ u ≠ ("kB").toList ∧ u ≠ ("MB").toList
      ∧ u ≠ ("GB").toList ∧ u ≠ ("TB").toList) :
    parseDataUnit (("bytes").toList) = .ok 1
    ∧ parseDataUnit (("kB").toList) = .ok 1000
    ∧ parseDataUnit (("MB").toList) = .ok 1000000
    ∧ parseDataUnit (("GB").toList) = .ok 1000000000
    ∧ parseDataUnit (("TB").toList) = .ok 1000000000000
    ∧ getSpeed (("(2.0 GB/s)").toList) = .ok 2000000000
    ∧ getSpeed (("(5 bytes/s)").toList) = .ok 5
    ∧ getSpeed (("(1.5 MB/s)").toList) = .ok 1500000
    ∧ parseDataUnit u = .error (("unknown speed unit ").toList ++ u) := by
  refine ⟨by decide, by decide, by decide, by decide, by decide, by decide, by decide,
    by decide, ?_⟩
  unfold parseDataUnit
  rw [if_neg hu.2.1, if_neg hu.2.2.1, if_neg hu.2.2.2.1, if_neg hu.2.2.2.2, if_neg hu.1]

/-- Witness for C8: the binary-style unit `"KB"` lies outside the closed
unit set and is rejected. -/
theorem speed_unit_conversion_witness :
    parseDataUnit (("KB").toList)
      = .error (("unknown speed unit ").toList ++ ("KB").toList) :=
  (speed_unit_conversion (("KB").toList) (by decide)).2.2.2.2.2.2.2.2

/-- C9: rendering a successfully parsed ref reproduces the input string:
three parts are rejoined without a type, four parts (first `app` or
`runtime`) rejoin to the same four slash-separated parts. -/
theorem parseRef_roundTrip (s : List Char) (r : Ref) (h : parseRef s = .ok r) :
    Ref.toString r = s := by
  have hj := joinChar_splitOnChar '/' s
  rcases hsp : splitOnChar '/' s
    with _ | ⟨a, _ | ⟨b, _ | ⟨c, _ | ⟨d, _ | ⟨e, rest⟩⟩⟩⟩⟩ <;>
    rw [hsp] at hj
  · have hpe : parseRef s = .error (("length of parts is not 3 or 4").toList) := by
      unfold parseRef
      rw [hsp]
    rw [hpe] at h
    exact Except.noConfusion h
  · have hpe : parseRef s = .error (("length of parts is not 3 or 4").toList) := by
      unfold parseRef
      rw [hsp]
    rw [hpe] at h
    exact Except.noConfusion h
  · have hpe : parseRef s = .error (("length of parts is not 3 or 4").toList) := by
      unfold parseRef
      rw [hsp]
    rw [hpe] at h
    exact Except.noConfusion h
  · have hpe : parseRef s = .ok ⟨[], a, b, c⟩ := by
      unfold parseRef
      rw [hsp]
    rw [hpe] at h
    injection h with h'
    subst h'
    rw [← hj]
    simp [Ref.toString, joinChar]
  · have hpe : parseRef s = if a = ("app").toList ∨ a = ("runtime").toList
        then .ok ⟨a, b, c, d⟩ else .error (("unknown type in ref").toList) := by
      unfold parseRef
      rw [hsp]
    rw [hpe] at h
    by_cases hc : a = ("app").toList ∨ a = ("runtime").toList
    · rw [if_pos hc] at h
      injection h with h'
      subst h'
      have htne : a ≠ [] := by
        rcases hc with h' | h' <;> subst h' <;> decide
      rw [← hj]
      simp [Ref.toString, htne, joinChar]
    · rw [if_neg hc] at h
      exact Except.noConfusion h
  · have hpe : parseRef s = .error (("length of parts is not 3 or 4").toList) := by
      unfold parseRef
      rw [hsp]
    rw [hpe] at h
    exact Except.noConfusion h

/-- Witness for C9: the four-part ref `"app/org.ex/x86_64/stable"`. -/
theorem parseRef_roundTrip_witness :
    Ref.toString ⟨("app").toList, ("org.ex").toList, ("x86_64").toList, ("stable").toList⟩
      = ("app/org.ex/x86_64/stable").toList :=
  parseRef_roundTrip (("app/org.ex/x86_64/stable").toList)
    ⟨("app").toList, ("org.ex").toList, ("x86_64").toList, ("stable").toList⟩ (by decide)

/-- C10: every options argument-list builder returns the empty list on a
nil receiver, and the nil receiver behaves exactly like an options value
with every flag unset. -/
theorem nil_options_empty_args :
    InstallOptions.getArgs none = [] ∧ ListOptions.getArgs none = []
    ∧ InfoOptions.getArgs none = [] ∧ UninstallOptions.getArgs none = []
    ∧ RemotesOptions.getArgs none = [] ∧ RemoteLsOptions.getArgs none = []
    ∧ InstallOptions.getArgs (some ⟨false, false, false, false, false, false, false,
        false, false, false, false, [], false⟩) = []
    ∧ ListOptions.getArgs (some ⟨false, false, false, false, [], false⟩) = []
    ∧ InfoOptions.getArgs (some ⟨false, false⟩) = []
    ∧ UninstallOptions.getArgs (some ⟨[], false, false, false, false, false, false, false⟩) = []
    ∧ RemotesOptions.getArgs (some ⟨false, false, false⟩) = []
    ∧ RemoteLsOptions.getArgs (some ⟨[], false, false, false, false, false⟩) = [] := by
  decide

end Flatpak
